import Mathlib

/-!
Shallow embedding of the grizzly reconciliation core (package `grizzly`,
file embedded from `src/unnamed/part_000`, plus the grafana event handler
in the same file and `src/pkg/grafana/dashboard-handler.go`).

Go interfaces (`Handler`, `Registry`, `Notifier`) become Lean structures of
functions; remote endpoints and the local filesystem become explicit state
threaded through the functions; fallible Go calls returning `error` become
`Except GErr`.  Notifier calls and the handler calls the claims reason about
are recorded in an event trace returned alongside the result.  External
libraries (difflib, the YAML/JSON decoders, the jsonnet evaluator, the
centrifuge transport) are modelled as opaque function parameters or as
already-decoded inputs, exactly at the boundary where the grizzly code
invokes them.
-/

deriving instance DecidableEq for Except

namespace Grizzly

/-- Error values.  Go compares errors against the sentinel `ErrNotFound`
with `==`; other errors are `fmt.Errorf` strings. -/
inductive GErr where
  | notFound
  | handlerNotFound (name : String)
  | invalidUID (uid : String)
  | err (msg : String)
deriving DecidableEq, Repr

/-- The `%v` rendering of an error value, used when grizzly wraps an error
with `fmt.Errorf`. -/
def GErr.message : GErr → String
  | .notFound => "not found"
  | .handlerNotFound n => "handler not found: " ++ n
  | .invalidUID u => "UID must be <provider>.<uid>: " ++ u
  | .err m => m

/-- Modelled from the spec: the `grizzly.Resource` struct is declared in a
repository file that is not part of the provided sources; §3 of the spec
gives its shape `{Kind, UID, Filename, JSONPath, Detail}` with `Detail` an
opaque handler-defined payload, here an opaque string. -/
structure Resource where
  kind : String
  uid : String
  filename : String
  jsonPath : String
  detail : String
deriving DecidableEq, Repr

/-- `resource.Kind()`. -/
def Resource.Kind (r : Resource) : String := r.kind

/-- `resource.Name()`: the UID of the resource. -/
def Resource.Name (r : Resource) : String := r.uid

/-- Modelled from the spec: `resource.YAML()` marshals the resource to its
canonical textual representation.  Marshalling a well-formed resource never
fails, so the model serializes the fields deterministically; the `error`
half of the Go return value is kept in the type so call sites can check it
the way the Go code does. -/
def Resource.yamlStr (r : Resource) : String :=
  "kind: " ++ r.kind ++ "\nuid: " ++ r.uid ++ "\nfilename: " ++ r.filename ++
    "\njsonPath: " ++ r.jsonPath ++ "\ndetail: " ++ r.detail ++ "\n"

/-- `resource.YAML()` with the Go `(string, error)` signature. -/
def Resource.YAML (r : Resource) : Except GErr String := .ok r.yamlStr

/-- A generic decoded manifest (`{kind, metadata, spec}`), the unit the
parsing pipeline feeds to `handler.Parse`. -/
structure Manifest where
  kind : String
  name : String
  spec : String
deriving DecidableEq, Repr

/-- Trace entries: notifier calls (`NotFound`, `NoChanges`, `HasChanges`,
`Added`, `Updated`, `NotSupported`, `Info`/`Warn`/`Error`) and the handler
calls the reconciliation algorithms make (recorded so that "calls Add
exactly once"-style statements are expressible). -/
inductive Event where
  | notFound (r : Resource)
  | noChanges (r : Resource)
  | hasChanges (r : Resource) (diffText : String)
  | added (r : Resource)
  | updated (r : Resource)
  | notSupported (kind name action : String)
  | info (r : Resource) (msg : String)
  | warn (r : Resource) (msg : String)
  | errorMsg (r : Resource) (msg : String)
  | callGetRemote (r : Resource)
  | callAdd (r : Resource)
  | callUpdate (existing r : Resource)
  | compareReps (localRep remoteRep : String)
  | callParse (m : Manifest)
  | fetchDashboard (uid : String)
deriving DecidableEq, Repr

/-- `grizzly.PreviewOpts`. -/
structure PreviewOpts where
  expiresSeconds : Int
deriving DecidableEq, Repr

/-- The `grizzly.Handler` interface, polymorphic over the remote state `σ`
maintained by the handler's endpoint.  Reads (`getByUID`, `getRemote`) do
not change the state; writes (`add`, `update`) return the new state.
The optional Preview capability (the Go type assertion
`handler.(PreviewHandler)`) is an `Option` field; when present it returns
the notifications the handler emits and the new remote state. -/
structure Handler (σ : Type) where
  kind : String
  apiVersion : String
  extension : String
  parse : Manifest → Except GErr (List Resource)
  getByUID : String → σ → Except GErr Resource
  getRemote : Resource → σ → Except GErr Resource
  add : Resource → σ → Except GErr σ
  update : Resource → Resource → σ → Except GErr σ
  prepare : Resource → Resource → Resource
  unprepare : Resource → Resource
  preview : Option (Resource → PreviewOpts → σ → Except GErr (List Event × σ))

/-- Modelled from the spec: the `Registry` maps handler names to handlers;
`GetHandler(name)` is an exact lookup failing with `HandlerNotFound` when
absent (§4.1).  Only the lookup function is needed by the embedded code. -/
structure Registry (σ : Type) where
  getHandler : String → Except GErr (Handler σ)

/-- The arguments of `difflib.UnifiedDiff` as grizzly fills them in. -/
structure UnifiedDiff where
  A : List String
  B : List String
  FromFile : String
  ToFile : String
  Context : Nat

/-- `grizzly.Config`: registry plus notifier (the notifier is the event
trace).  The two difflib entry points grizzly calls
(`difflib.SplitLines`, `difflib.GetUnifiedDiffString`) are external
library code and are carried as opaque functions. -/
structure Config (σ : Type) where
  registry : Registry σ
  splitLines : String → List String
  getUnifiedDiffString : UnifiedDiff → String

/-! ### UID parsing (Get, lines 30–43, and the identical prologue of
Listen, lines 358–371 of the grizzly file)

`strings.Count(UID, ".")` is the number of dots; with `count == 1`,
`strings.SplitN(UID, ".", 2)` returns the two dot-free segments, and with
`count == 2`, `strings.SplitN(UID, ".", 3)` returns the three segments, so
within each branch `SplitN` coincides with a full split on `'.'`, embedded
below as `splitDots`. -/

/-- Splits a character list at every `'.'`: returns the first segment and
the list of remaining segments. -/
def splitDotsAux : List Char → List Char × List (List Char)
  | [] => ([], [])
  | c :: cs =>
    if c = '.' then ([], (splitDotsAux cs).1 :: (splitDotsAux cs).2)
    else (c :: (splitDotsAux cs).1, (splitDotsAux cs).2)

/-- Full split on `'.'` (the semantics of `strings.Split(s, ".")`). -/
def splitDots (cs : List Char) : List (List Char) :=
  (splitDotsAux cs).1 :: (splitDotsAux cs).2

/-- The dot-separated segments of a string. -/
def segments (s : String) : List String :=
  (splitDots s.toList).map fun l => String.mk l

/-- The UID-parsing prologue shared verbatim by `Get` and `Listen`:
count the dots, split, and produce `(handlerName, resourceID)`, failing
with the invalid-UID error on any other dot count. -/
def parseUID (uid : String) : Except GErr (String × String) :=
  let count := uid.toList.count '.'
  if count = 1 then
    match segments uid with
    | [handlerName, resourceID] => .ok (handlerName, resourceID)
    | _ => .error (.invalidUID uid)
  else if count = 2 then
    match segments uid with
    | [p0, p1, resourceID] => .ok (p0 ++ "." ++ p1, resourceID)
    | _ => .error (.invalidUID uid)
  else
    .error (.invalidUID uid)

/-! ### The one-shot reconciler operations (grizzly file lines 28–434) -/

/-- `Get` (lines 29–63): parse the UID, look up the handler, fetch by id,
unprepare and render.  The Go function prints the representation and
returns `nil`; the model returns the printed string. -/
def GetGo {σ : Type} (cfg : Config σ) (s : σ) (uid : String) :
    Except GErr String :=
  match parseUID uid with
  | .error e => .error e
  | .ok (handlerName, resourceID) =>
    match cfg.registry.getHandler handlerName with
    | .error e => .error e
    | .ok h =>
      match h.getByUID resourceID s with
      | .error e => .error e
      | .ok resource =>
        match (h.unprepare resource).YAML with
        | .error e => .error e
        | .ok rep => .ok rep

/-- `ParseYAML` (lines 95–119), after the external YAML stream decoder:
for each decoded manifest, look up the handler by kind (failure aborts),
parse (failure aborts), and accumulate the parsed resources. -/
def ParseYAMLGo {σ : Type} (cfg : Config σ) :
    List Manifest → Except GErr (List Resource) × List Event
  | [] => (.ok [], [])
  | m :: rest =>
    match cfg.registry.getHandler m.kind with
    | .error e => (.error e, [])
    | .ok h =>
      match h.parse m with
      | .error e => (.error e, [Event.callParse m])
      | .ok rs =>
        let tail := ParseYAMLGo cfg rest
        (tail.1.map fun acc => rs ++ acc, Event.callParse m :: tail.2)

/-- `ParseJsonnet` (lines 125–167), after the external jsonnet evaluator,
`process.Extract` and `process.Unwrap` have produced the flat manifest
list: a failed handler lookup is logged and the manifest skipped
(`continue`); a parse failure aborts. -/
def ParseJsonnetGo {σ : Type} (cfg : Config σ) :
    List Manifest → Except GErr (List Resource) × List Event
  | [] => (.ok [], [])
  | m :: rest =>
    match cfg.registry.getHandler m.kind with
    | .error _ => ParseJsonnetGo cfg rest
    | .ok h =>
      match h.parse m with
      | .error e => (.error e, [Event.callParse m])
      | .ok rs =>
        let tail := ParseJsonnetGo cfg rest
        (tail.1.map fun acc => rs ++ acc, Event.callParse m :: tail.2)

/-- `Diff` (lines 198–240).  Per resource: handler lookup (failure:
`return nil`), local representation, `resource = Unprepare(resource)`,
`GetRemote(resource)`; `ErrNotFound` notifies and continues, any other
fetch error aborts with the wrapped kind/uid message; otherwise the remote
is unprepared, both representations compared, and `NoChanges` or
`HasChanges` (with the difflib unified diff, remote as A/From, local as
B/To, context 3) emitted.  Returns the result and the notification/call
trace. -/
def DiffGo {σ : Type} (cfg : Config σ) (s : σ) :
    List Resource → Except GErr Unit × List Event
  | [] => (.ok (), [])
  | r :: rest =>
    match cfg.registry.getHandler r.Kind with
    | .error _ => (.ok (), [])
    | .ok h =>
      match r.YAML with
      | .error _ => (.ok (), [])
      | .ok localRep =>
        let resource := h.unprepare r
        let uid := resource.Name
        match h.getRemote resource s with
        | .error e =>
          if e = GErr.notFound then
            let tail := DiffGo cfg s rest
            (tail.1, Event.callGetRemote resource :: Event.notFound resource :: tail.2)
          else
            (.error (.err ("Error retrieving resource from " ++ resource.Kind ++ " " ++
                uid ++ ": " ++ e.message)),
              [Event.callGetRemote resource])
        | .ok remote =>
          let remote := h.unprepare remote
          match remote.YAML with
          | .error e => (.error e, [Event.callGetRemote resource])
          | .ok remoteRepresentation =>
            if localRep = remoteRepresentation then
              let tail := DiffGo cfg s rest
              (tail.1, Event.callGetRemote resource ::
                Event.compareReps localRep remoteRepresentation ::
                Event.noChanges resource :: tail.2)
            else
              let difference := cfg.getUnifiedDiffString
                ⟨cfg.splitLines remoteRepresentation, cfg.splitLines localRep,
                  "Remote", "Local", 3⟩
              let tail := DiffGo cfg s rest
              (tail.1, Event.callGetRemote resource ::
                Event.compareReps localRep remoteRepresentation ::
                Event.hasChanges resource difference :: tail.2)

/-- `Apply` (lines 243–282).  Per resource: handler lookup (failure:
`return nil`), `GetRemote(resource)`; `ErrNotFound` runs `Add` (failure
aborts) and notifies `Added`; any other fetch error aborts; otherwise the
local representation is taken from the resource as parsed, the resource is
replaced by `Prepare(existing, resource)`, the remote by
`Unprepare(existing)`, the remote representation computed, and either
`NoChanges` or (`Update`, failure aborting, then) `Updated` follows. -/
def ApplyGo {σ : Type} (cfg : Config σ) :
    List Resource → σ → Except GErr Unit × List Event × σ
  | [], s => (.ok (), [], s)
  | r :: rest, s =>
    match cfg.registry.getHandler r.Kind with
    | .error _ => (.ok (), [], s)
    | .ok h =>
      match h.getRemote r s with
      | .error e =>
        if e = GErr.notFound then
          match h.add r s with
          | .error e₂ => (.error e₂, [Event.callGetRemote r, Event.callAdd r], s)
          | .ok s₂ =>
            let tail := ApplyGo cfg rest s₂
            (tail.1, Event.callGetRemote r :: Event.callAdd r :: Event.added r :: tail.2.1,
              tail.2.2)
        else
          (.error e, [Event.callGetRemote r], s)
      | .ok existingResource =>
        match r.YAML with
        | .error e => (.error e, [Event.callGetRemote r], s)
        | .ok resourceRepresentation =>
          let resource := h.prepare existingResource r
          let existingResource := h.unprepare existingResource
          match existingResource.YAML with
          | .error _ => (.ok (), [Event.callGetRemote r], s)
          | .ok existingResourceRepresentation =>
            if resourceRepresentation = existingResourceRepresentation then
              let tail := ApplyGo cfg rest s
              (tail.1, Event.callGetRemote r ::
                Event.compareReps resourceRepresentation existingResourceRepresentation ::
                Event.noChanges resource :: tail.2.1, tail.2.2)
            else
              match h.update existingResource resource s with
              | .error e =>
                (.error e, [Event.callGetRemote r,
                  Event.compareReps resourceRepresentation existingResourceRepresentation,
                  Event.callUpdate existingResource resource], s)
              | .ok s₂ =>
                let tail := ApplyGo cfg rest s₂
                (tail.1, Event.callGetRemote r ::
                  Event.compareReps resourceRepresentation existingResourceRepresentation ::
                  Event.callUpdate existingResource resource ::
                  Event.updated resource :: tail.2.1, tail.2.2)

/-- `Preview` (lines 285–302).  Per resource: handler lookup (failure:
`return nil`); a handler without the Preview capability notifies
`NotSupported` and returns `nil` for the whole command; otherwise the
handler's preview runs (its error aborting) and its notifications are
appended. -/
def PreviewGo {σ : Type} (cfg : Config σ) (opts : PreviewOpts) :
    List Resource → σ → Except GErr Unit × List Event × σ
  | [], s => (.ok (), [], s)
  | r :: rest, s =>
    match cfg.registry.getHandler r.Kind with
    | .error _ => (.ok (), [], s)
    | .ok h =>
      match h.preview with
      | none => (.ok (), [Event.notSupported h.kind r.Name "preview"], s)
      | some pv =>
        match pv r opts s with
        | .error e => (.error e, [], s)
        | .ok (evs, s₂) =>
          let tail := PreviewGo cfg opts rest s₂
          (tail.1, evs ++ tail.2.1, tail.2.2)

/-- The local filesystem as a path-to-content map. -/
abbrev FS := List (String × String)

/-- `ioutil.ReadFile`: `none` is the `os.IsNotExist` error. -/
def readFS (fs : FS) (path : String) : Option String :=
  (fs.find? fun p => p.1 == path).map fun p => p.2

/-- `ioutil.WriteFile`: overwrite the file in full. -/
def writeFS (fs : FS) (path content : String) : FS :=
  (path, content) :: fs.filter fun p => p.1 != path

/-- `Export` (lines 386–434), its per-resource loop.  Directory creation
is modelled as always succeeding.  Per resource: handler lookup (failure:
`return nil`), serialize, build `<exportDir>/<Kind>/<Name>.<extension>`,
read any existing file (absence is `isNotExist`, contents the empty
string), skip the write with `NoChanges` when byte-identical, otherwise
overwrite and notify `Added` (file absent) or `Updated` (file present). -/
def ExportGo {σ : Type} (cfg : Config σ) (exportDir : String) :
    List Resource → FS → Except GErr Unit × List Event × FS
  | [], fs => (.ok (), [], fs)
  | r :: rest, fs =>
    match cfg.registry.getHandler r.Kind with
    | .error _ => (.ok (), [], fs)
    | .ok h =>
      match r.YAML with
      | .error e => (.error e, [], fs)
      | .ok updatedResource =>
        let dir := exportDir ++ "/" ++ r.Kind
        let path := dir ++ "/" ++ r.Name ++ "." ++ h.extension
        match readFS fs path with
        | some existingResource =>
          if existingResource = updatedResource then
            let tail := ExportGo cfg exportDir rest fs
            (tail.1, Event.noChanges r :: tail.2.1, tail.2.2)
          else
            let tail := ExportGo cfg exportDir rest (writeFS fs path updatedResource)
            (tail.1, Event.updated r :: tail.2.1, tail.2.2)
        | none =>
          if "" = updatedResource then
            let tail := ExportGo cfg exportDir rest fs
            (tail.1, Event.noChanges r :: tail.2.1, tail.2.2)
          else
            let tail := ExportGo cfg exportDir rest (writeFS fs path updatedResource)
            (tail.1, Event.added r :: tail.2.1, tail.2.2)

/-! ### The Listen loop's publish callback
(`eventHandler.OnPublish`, grafana file, lines 499–525 of the combined
source) -/

/-- The decoded push payload `{uid, action, userId}`. -/
structure PublishEvent where
  uid : String
  action : String
  userId : Int
deriving DecidableEq, Repr

/-- A remote dashboard body, as fetched by `getRemoteDashboard`. -/
structure Dashboard where
  body : String
deriving DecidableEq, Repr

/-- `dashboard.toJSON()`; marshalling is modelled as total. -/
def Dashboard.toJSON (d : Dashboard) : Except GErr String := .ok d.body

/-- `eventHandler.OnPublish`: JSON-decode the payload (the decoder is
external; the model takes the decode outcome as input — a decode error is
logged and the callback returns).  When `response.Action != "saved"` the
Go code only logs "Unknown action received" and control falls through: the
remote fetch and the file overwrite happen for every decodable payload.
Fetch or serialize errors are logged and the callback returns; otherwise
the target file is overwritten in full.  The callback never returns an
error, so the subscription loop always continues. -/
def OnPublishGo (getRemoteDashboard : String → Except GErr Dashboard)
    (filename : String) (decoded : Except String PublishEvent) (fs : FS) :
    FS × List Event :=
  match decoded with
  | .error _ => (fs, [])
  | .ok response =>
    match getRemoteDashboard response.uid with
    | .error _ => (fs, [Event.fetchDashboard response.uid])
    | .ok dashboard =>
      match dashboard.toJSON with
      | .error _ => (fs, [Event.fetchDashboard response.uid])
      | .ok dashboardJSON =>
        (writeFS fs filename dashboardJSON, [Event.fetchDashboard response.uid])

/-! ### Concrete instances used to evaluate the theorems -/

/-- Remote state for a store-backed handler: composite key to resource. -/
abbrev Store := List (String × Resource)

/-- The composite key `Kind + "." + UID` (spec §3). -/
def Resource.storeKey (r : Resource) : String := r.kind ++ "." ++ r.uid

def storeGet (s : Store) (k : String) : Option Resource :=
  (s.find? fun p => p.1 == k).map fun p => p.2

def storePut (s : Store) (k : String) (r : Resource) : Store :=
  (k, r) :: s.filter fun p => p.1 != k

/-- A dashboard-like handler over an explicit store: `add`/`update` write
the resource under its key, `getRemote` reads it back, and (as in
`DashboardHandler`) `Prepare` and `Unprepare` return their resource
argument unchanged. -/
def storeHandler : Handler Store where
  kind := "Dashboard"
  apiVersion := "grafana.com/v1"
  extension := "json"
  parse := fun m => .ok [⟨m.kind, m.name, m.name, "grafanaDashboards", m.spec⟩]
  getByUID := fun uid s =>
    match storeGet s ("Dashboard." ++ uid) with
    | some r => .ok r
    | none => .error .notFound
  getRemote := fun r s =>
    match storeGet s r.storeKey with
    | some e => .ok e
    | none => .error .notFound
  add := fun r s => .ok (storePut s r.storeKey r)
  update := fun _ r s => .ok (storePut s r.storeKey r)
  prepare := fun _ r => r
  unprepare := fun r => r
  preview := none

/-- A concrete unified-diff rendering standing in for difflib. -/
def diffStr (d : UnifiedDiff) : String :=
  "--- " ++ d.FromFile ++ "\n+++ " ++ d.ToFile ++ "\n@" ++ toString d.Context ++
    "\n-" ++ String.intercalate "-" d.A ++ "\n+" ++ String.intercalate "+" d.B

def cfgStore : Config Store where
  registry := ⟨fun name =>
    if name == "Dashboard" then .ok storeHandler else .error (.handlerNotFound name)⟩
  splitLines := fun s => s.splitOn "\n"
  getUnifiedDiffString := diffStr

def rEx : Resource := ⟨"Dashboard", "mydash", "dash.json", "grafanaDashboards", "panels"⟩

/-- The remote value served by `okHandler`. -/
def remoteEx : Resource := ⟨"OK", "u1", "f1", "p", "d1"⟩

/-- A stateless handler whose remote always holds `remoteEx`. -/
def okHandler : Handler Unit where
  kind := "OK"
  apiVersion := "v1"
  extension := "json"
  parse := fun m => .ok [⟨m.kind, m.name, m.name, "p", m.spec⟩]
  getByUID := fun _ _ => .ok remoteEx
  getRemote := fun _ _ => .ok remoteEx
  add := fun _ _ => .ok ()
  update := fun _ _ _ => .ok ()
  prepare := fun _ r => r
  unprepare := fun r => r
  preview := none

/-- A handler whose remote has nothing: fetches fail with `ErrNotFound`. -/
def nfHandler : Handler Unit :=
  { okHandler with kind := "NF", getRemote := fun _ _ => .error .notFound }

/-- A handler whose endpoint is unreachable: fetches fail with an error
other than `ErrNotFound`. -/
def downHandler : Handler Unit :=
  { okHandler with
    kind := "Down"
    getRemote := fun _ _ => .error (.err "connection refused") }

/-- A handler whose `Parse` rejects every manifest. -/
def badParseHandler : Handler Unit :=
  { okHandler with kind := "Bad", parse := fun _ => .error (.err "invalid spec") }

/-- A stateless registry with one handler per behavior. -/
def cfgEx : Config Unit where
  registry := ⟨fun name =>
    if name == "OK" then .ok okHandler
    else if name == "NF" then .ok nfHandler
    else if name == "Down" then .ok downHandler
    else if name == "Bad" then .ok badParseHandler
    else .error (.handlerNotFound name)⟩
  splitLines := fun s => s.splitOn "\n"
  getUnifiedDiffString := diffStr

def rOK : Resource := ⟨"OK", "u1", "f1", "p", "d1"⟩
def rOK2 : Resource := ⟨"OK", "u2", "f2", "p", "d2"⟩
def rNF : Resource := ⟨"NF", "u3", "f3", "p", "d3"⟩
def rDown : Resource := ⟨"Down", "u4", "f4", "p", "d4"⟩
def rUnk : Resource := ⟨"Unknown", "u5", "f5", "p", "d5"⟩

def mGood : Manifest := ⟨"OK", "m1", "s1"⟩
def mBad : Manifest := ⟨"Bad", "m2", "s2"⟩

/-- The locally declared resource and the existing remote used to probe
Apply's comparison: they differ only in the server-assigned `detail`. -/
def rC2 : Resource := ⟨"Dashboard", "d1", "file1", "grafanaDashboards", "a"⟩

def eC2 : Resource := ⟨"Dashboard", "d1", "file1", "grafanaDashboards", "b"⟩

/-- A handler whose `Prepare` merges the server-assigned `detail` of the
existing remote resource into the local copy (the comparison-safe merge
the spec describes for `Prepare`). -/
def mergeHandler : Handler Unit :=
  { okHandler with
    kind := "Dashboard"
    getRemote := fun _ _ => .ok eC2
    prepare := fun existing r => { r with detail := existing.detail } }

def cfgC2 : Config Unit where
  registry := ⟨fun name =>
    if name == "Dashboard" then .ok mergeHandler else .error (.handlerNotFound name)⟩
  splitLines := fun s => s.splitOn "\n"
  getUnifiedDiffString := diffStr

/-- The remote dashboard endpoint used by the OnPublish evaluation. -/
def grdC8 : String → Except GErr Dashboard := fun uid =>
  if uid == "x" then .ok ⟨"dashboard-x-body"⟩ else .error .notFound

/-! ## Theorems -/

/-- Each segment boundary is one dot: the number of later segments equals
the dot count. -/
theorem length_splitDotsAux (cs : List Char) :
    (splitDotsAux cs).2.length = cs.count '.' := by
  induction cs with
  | nil => rfl
  | cons c cs ih =>
    by_cases hc : c = '.'
    · simp [splitDotsAux, hc, List.count_cons, ih]
    · simp [splitDotsAux, hc, List.count_cons, ih]

theorem length_segments (s : String) :
    (segments s).length = s.toList.count '.' + 1 := by
  simp [segments, splitDots, length_splitDotsAux]

/-- Claim C6: UID parsing splits the UID string on dots: with exactly one
dot the handler name is the first segment and the id the second; with
exactly two dots the handler name is the first two segments joined by a
dot and the id the third; any other dot count fails with the invalid-UID
error.  In particular "grafana.dashboard.abc123" parses to handler
"grafana.dashboard" and id "abc123", while "abc123" and "a.b.c.d" are
rejected. -/
theorem parseUID_dot_scheme :
    parseUID "grafana.dashboard.abc123" = .ok ("grafana.dashboard", "abc123") ∧
    parseUID "grafana.abc123" = .ok ("grafana", "abc123") ∧
    parseUID "abc123" = .error (.invalidUID "abc123") ∧
    parseUID "a.b.c.d" = .error (.invalidUID "a.b.c.d") ∧
    (∀ uid : String, uid.toList.count '.' = 1 →
      ∃ a b, segments uid = [a, b] ∧ parseUID uid = .ok (a, b)) ∧
    (∀ uid : String, uid.toList.count '.' = 2 →
      ∃ a b c, segments uid = [a, b, c] ∧ parseUID uid = .ok (a ++ "." ++ b, c)) ∧
    (∀ uid : String, uid.toList.count '.' ≠ 1 → uid.toList.count '.' ≠ 2 →
      parseUID uid = .error (.invalidUID uid)) := by
  refine ⟨by decide, by decide, by decide, by decide, ?_, ?_, ?_⟩
  · intro uid h
    have h' : List.count '.' uid.data = 1 := h
    have hlen : (segments uid).length = 2 := by rw [length_segments, h]
    obtain ⟨a, b, hab⟩ := List.length_eq_two.mp hlen
    exact ⟨a, b, hab, by simp [parseUID, h', hab]⟩
  · intro uid h
    have h' : List.count '.' uid.data = 2 := h
    have hlen : (segments uid).length = 3 := by rw [length_segments, h]
    obtain ⟨a, b, c, habc⟩ := List.length_eq_three.mp hlen
    exact ⟨a, b, c, habc, by simp [parseUID, h', habc]⟩
  · intro uid h1 h2
    have h1' : List.count '.' uid.data ≠ 1 := h1
    have h2' : List.count '.' uid.data ≠ 2 := h2
    simp [parseUID, h1', h2']

theorem parseUID_dot_scheme_witness :
    ("p.q".toList.count '.' = 1) ∧
    (∃ a b, segments "p.q" = [a, b] ∧ parseUID "p.q" = .ok (a, b)) :=
  ⟨by decide, parseUID_dot_scheme.2.2.2.2.1 "p.q" (by decide)⟩

/-- Claim C7: during Preview, a resource whose handler does not expose the
Preview capability makes the whole command stop at once: the NotSupported
notification is emitted and Preview returns a nil result; no event of this
or any later resource is produced. -/
theorem preview_not_supported_stops {σ : Type} (cfg : Config σ) (opts : PreviewOpts)
    (h : Handler σ) (r : Resource) (rest : List Resource) (s : σ)
    (hreg : cfg.registry.getHandler r.Kind = .ok h)
    (hnone : h.preview = none) :
    PreviewGo cfg opts (r :: rest) s =
      (.ok (), [Event.notSupported h.kind r.Name "preview"], s) := by
  simp [PreviewGo, hreg, hnone]

theorem preview_not_supported_stops_witness :
    (cfgEx.registry.getHandler rOK.Kind = .ok okHandler) ∧
    (okHandler.preview = none) ∧
    PreviewGo cfgEx ⟨0⟩ [rOK, rOK2] () =
      (.ok (), [Event.notSupported okHandler.kind rOK.Name "preview"], ()) :=
  ⟨rfl, rfl, preview_not_supported_stops cfgEx ⟨0⟩ okHandler rOK [rOK2] () rfl rfl⟩

/-- Claim C8 (the code at the failing input): `OnPublish` decodes the
payload `{uid := "x", action := "deleted", userId := 1}`, whose action is
not "saved", yet still fetches remote "x" and overwrites the target file
with the fetched body — the Go code logs "Unknown action received" but is
missing the early return, so the resync is not restricted to
`action == "saved"`.  A payload that fails to decode is ignored without
fetching or writing, and a "saved" payload resyncs, as the claim states. -/
theorem onpublish_nonsaved_still_writes :
    OnPublishGo grdC8 "dash.json" (.ok ⟨"x", "deleted", 1⟩) [("dash.json", "old-content")] =
      ([("dash.json", "dashboard-x-body")], [Event.fetchDashboard "x"]) ∧
    OnPublishGo grdC8 "dash.json" (.ok ⟨"x", "saved", 1⟩) [("dash.json", "old-content")] =
      ([("dash.json", "dashboard-x-body")], [Event.fetchDashboard "x"]) ∧
    OnPublishGo grdC8 "dash.json" (.error "bad payload") [("dash.json", "old-content")] =
      ([("dash.json", "old-content")], []) := by
  refine ⟨by decide, by decide, by decide⟩

/-- Claim C10: when the registry has no handler for a resource's kind,
Diff, Apply, Preview and Export all return a nil (ok) result immediately
at that resource: the lookup error is not surfaced, no notification is
emitted, no state changes, and neither that resource nor any later one is
processed. -/
theorem handler_lookup_failure_returns_nil {σ : Type} (cfg : Config σ) (s : σ)
    (opts : PreviewOpts) (exportDir : String) (fs : FS) (r : Resource)
    (rest : List Resource) (e : GErr)
    (hreg : cfg.registry.getHandler r.Kind = .error e) :
    DiffGo cfg s (r :: rest) = (.ok (), []) ∧
    ApplyGo cfg (r :: rest) s = (.ok (), [], s) ∧
    PreviewGo cfg opts (r :: rest) s = (.ok (), [], s) ∧
    ExportGo cfg exportDir (r :: rest) fs = (.ok (), [], fs) := by
  refine ⟨?_, ?_, ?_, ?_⟩ <;> simp [DiffGo, ApplyGo, PreviewGo, ExportGo, hreg]

theorem handler_lookup_failure_returns_nil_witness :
    (cfgEx.registry.getHandler rUnk.Kind = .error (.handlerNotFound "Unknown")) ∧
    (DiffGo cfgEx () [rUnk, rOK] = (.ok (), []) ∧
     ApplyGo cfgEx [rUnk, rOK] () = (.ok (), [], ()) ∧
     PreviewGo cfgEx ⟨0⟩ [rUnk, rOK] () = (.ok (), [], ()) ∧
     ExportGo cfgEx "export" [rUnk, rOK] [] = (.ok (), [], [])) :=
  ⟨rfl, handler_lookup_failure_returns_nil cfgEx () ⟨0⟩ "export" [] rUnk [rOK]
    (.handlerNotFound "Unknown") rfl⟩

/-- Claim C1: for a resource whose remote fetch returns the not-found
error (and whose Add succeeds, any Add error aborting the run per the
fail-fast policy), Apply calls the handler's Add exactly once for that
resource, never calls Update for it, performs no representation
comparison for it, emits the Added notification, and continues with the
remaining resources. -/
theorem apply_notfound_adds_once {σ : Type} (cfg : Config σ) (h : Handler σ)
    (r : Resource) (rest : List Resource) (s s₂ : σ)
    (hreg : cfg.registry.getHandler r.Kind = .ok h)
    (hnf : h.getRemote r s = .error .notFound)
    (hadd : h.add r s = .ok s₂) :
    ApplyGo cfg (r :: rest) s =
      ((ApplyGo cfg rest s₂).1,
        Event.callGetRemote r :: Event.callAdd r :: Event.added r ::
          (ApplyGo cfg rest s₂).2.1,
        (ApplyGo cfg rest s₂).2.2) ∧
    ([Event.callGetRemote r, Event.callAdd r, Event.added r].count (Event.callAdd r) = 1) ∧
    (∀ ex res, Event.callUpdate ex res ∉
      [Event.callGetRemote r, Event.callAdd r, Event.added r]) ∧
    (∀ a b, Event.compareReps a b ∉
      [Event.callGetRemote r, Event.callAdd r, Event.added r]) := by
  refine ⟨?_, ?_, ?_, ?_⟩
  · simp [ApplyGo, hreg, hnf, hadd]
  · simp [List.count_cons]
  · intro ex res
    simp
  · intro a b
    simp

theorem apply_notfound_adds_once_witness :
    (cfgStore.registry.getHandler rEx.Kind = .ok storeHandler) ∧
    (storeHandler.getRemote rEx [] = .error .notFound) ∧
    (storeHandler.add rEx [] = .ok [("Dashboard.mydash", rEx)]) ∧
    ApplyGo cfgStore [rEx] [] =
      ((ApplyGo cfgStore [] [("Dashboard.mydash", rEx)]).1,
        Event.callGetRemote rEx :: Event.callAdd rEx :: Event.added rEx ::
          (ApplyGo cfgStore [] [("Dashboard.mydash", rEx)]).2.1,
        (ApplyGo cfgStore [] [("Dashboard.mydash", rEx)]).2.2) :=
  ⟨rfl, by decide, by decide,
    (apply_notfound_adds_once cfgStore storeHandler rEx [] []
      [("Dashboard.mydash", rEx)] rfl (by decide) (by decide)).1⟩

/-- Claim C2, counterexample: Apply computes the local representation
from the resource BEFORE `Prepare` runs, not from the Prepare-transformed
copy.  With a handler whose Prepare merges the server-assigned `detail`
of the existing remote into the local copy, the transformed local copy
and the unprepared remote have equal representations, yet Apply calls
Update and emits Updated (it compares the pre-Prepare representation),
contradicting "if the representations [computed from those transformed
values] are equal it emits NoChanges and invokes neither Add nor
Update". -/
theorem apply_found_compare_counterexample :
    (mergeHandler.prepare eC2 rC2).yamlStr = (mergeHandler.unprepare eC2).yamlStr ∧
    (ApplyGo cfgC2 [rC2] ()).2.1 =
      [Event.callGetRemote rC2, Event.compareReps rC2.yamlStr eC2.yamlStr,
        Event.callUpdate eC2 eC2, Event.updated eC2] ∧
    Event.noChanges (mergeHandler.prepare eC2 rC2) ∉ (ApplyGo cfgC2 [rC2] ()).2.1 := by
  refine ⟨by decide, by decide, by decide⟩

/-- Claim C2 as amended: for every resource whose remote fetch succeeds,
Apply calls Prepare(existing, resource) and Unprepare(existing); the
comparison uses the local representation computed from the resource
BEFORE Prepare together with the remote representation computed from the
unprepared remote; if those are equal it emits NoChanges and invokes
neither Add nor Update, and if they are unequal it calls
Update(unprepared existing, prepared resource) and (when Update succeeds)
emits Updated. -/
theorem apply_found_compare {σ : Type} (cfg : Config σ) (h : Handler σ)
    (r ex : Resource) (rest : List Resource) (s : σ)
    (hreg : cfg.registry.getHandler r.Kind = .ok h)
    (hget : h.getRemote r s = .ok ex) :
    (r.yamlStr = (h.unprepare ex).yamlStr →
      ApplyGo cfg (r :: rest) s =
        ((ApplyGo cfg rest s).1,
          Event.callGetRemote r ::
            Event.compareReps r.yamlStr (h.unprepare ex).yamlStr ::
            Event.noChanges (h.prepare ex r) :: (ApplyGo cfg rest s).2.1,
          (ApplyGo cfg rest s).2.2)) ∧
    (∀ s₂, r.yamlStr ≠ (h.unprepare ex).yamlStr →
      h.update (h.unprepare ex) (h.prepare ex r) s = .ok s₂ →
      ApplyGo cfg (r :: rest) s =
        ((ApplyGo cfg rest s₂).1,
          Event.callGetRemote r ::
            Event.compareReps r.yamlStr (h.unprepare ex).yamlStr ::
            Event.callUpdate (h.unprepare ex) (h.prepare ex r) ::
            Event.updated (h.prepare ex r) :: (ApplyGo cfg rest s₂).2.1,
          (ApplyGo cfg rest s₂).2.2)) ∧
    (∀ x, Event.callAdd x ∉
      [Event.callGetRemote r, Event.compareReps r.yamlStr (h.unprepare ex).yamlStr,
        Event.noChanges (h.prepare ex r)]) ∧
    (∀ a b, Event.callUpdate a b ∉
      [Event.callGetRemote r, Event.compareReps r.yamlStr (h.unprepare ex).yamlStr,
        Event.noChanges (h.prepare ex r)]) := by
  refine ⟨?_, ?_, ?_, ?_⟩
  · intro heq
    simp [ApplyGo, hreg, hget, Resource.YAML, heq]
  · intro s₂ hne hupd
    simp [ApplyGo, hreg, hget, Resource.YAML, hne, hupd]
  · intro x
    simp
  · intro a b
    simp

theorem apply_found_compare_witness :
    (cfgEx.registry.getHandler rOK.Kind = .ok okHandler) ∧
    (okHandler.getRemote rOK () = .ok remoteEx) ∧
    (rOK.yamlStr = (okHandler.unprepare remoteEx).yamlStr) ∧
    ApplyGo cfgEx [rOK] () =
      ((ApplyGo cfgEx [] ()).1,
        Event.callGetRemote rOK ::
          Event.compareReps rOK.yamlStr (okHandler.unprepare remoteEx).yamlStr ::
          Event.noChanges (okHandler.prepare remoteEx rOK) :: (ApplyGo cfgEx [] ()).2.1,
        (ApplyGo cfgEx [] ()).2.2) :=
  ⟨rfl, by decide, by decide,
    (apply_found_compare cfgEx okHandler rOK remoteEx [] () rfl (by decide)).1 (by decide)⟩

/-- Claim C3: applying the same resource twice in succession — the second
run starting from exactly the remote state the first run produced, with
the handler returning on fetch what Add stored (up to Unprepare the
representation equals the resource's) — notifies Added on the first Apply
and NoChanges on the second, and Added is emitted by the first run and
not by the second. -/
theorem apply_twice_added_then_nochanges {σ : Type} (cfg : Config σ) (h : Handler σ)
    (r e : Resource) (s₀ s₁ : σ)
    (hreg : cfg.registry.getHandler r.Kind = .ok h)
    (h0 : h.getRemote r s₀ = .error .notFound)
    (hadd : h.add r s₀ = .ok s₁)
    (hfetch : h.getRemote r s₁ = .ok e)
    (hround : (h.unprepare e).yamlStr = r.yamlStr) :
    ApplyGo cfg [r] s₀ =
      (.ok (), [Event.callGetRemote r, Event.callAdd r, Event.added r], s₁) ∧
    ApplyGo cfg [r] s₁ =
      (.ok (), [Event.callGetRemote r, Event.compareReps r.yamlStr r.yamlStr,
        Event.noChanges (h.prepare e r)], s₁) ∧
    Event.added r ∈ (ApplyGo cfg [r] s₀).2.1 ∧
    Event.added r ∉ (ApplyGo cfg [r] s₁).2.1 := by
  have e1 : ApplyGo cfg [r] s₀ =
      (.ok (), [Event.callGetRemote r, Event.callAdd r, Event.added r], s₁) := by
    simp [ApplyGo, hreg, h0, hadd]
  have e2 : ApplyGo cfg [r] s₁ =
      (.ok (), [Event.callGetRemote r, Event.compareReps r.yamlStr r.yamlStr,
        Event.noChanges (h.prepare e r)], s₁) := by
    simp [ApplyGo, hreg, hfetch, Resource.YAML, hround]
  refine ⟨e1, e2, ?_, ?_⟩
  · rw [e1]; simp
  · rw [e2]; simp

theorem apply_twice_added_then_nochanges_witness :
    (cfgStore.registry.getHandler rEx.Kind = .ok storeHandler) ∧
    (storeHandler.getRemote rEx [] = .error .notFound) ∧
    (storeHandler.add rEx [] = .ok [("Dashboard.mydash", rEx)]) ∧
    (storeHandler.getRemote rEx [("Dashboard.mydash", rEx)] = .ok rEx) ∧
    ((storeHandler.unprepare rEx).yamlStr = rEx.yamlStr) ∧
    ApplyGo cfgStore [rEx] [] =
      (.ok (), [Event.callGetRemote rEx, Event.callAdd rEx, Event.added rEx],
        [("Dashboard.mydash", rEx)]) ∧
    ApplyGo cfgStore [rEx] [("Dashboard.mydash", rEx)] =
      (.ok (), [Event.callGetRemote rEx, Event.compareReps rEx.yamlStr rEx.yamlStr,
        Event.noChanges (storeHandler.prepare rEx rEx)], [("Dashboard.mydash", rEx)]) ∧
    Event.added rEx ∈ (ApplyGo cfgStore [rEx] []).2.1 ∧
    Event.added rEx ∉ (ApplyGo cfgStore [rEx] [("Dashboard.mydash", rEx)]).2.1 := by
  have t := apply_twice_added_then_nochanges cfgStore storeHandler rEx rEx []
    [("Dashboard.mydash", rEx)] rfl (by decide) (by decide) (by decide) (by decide)
  exact ⟨rfl, by decide, by decide, by decide, by decide, t.1, t.2.1, t.2.2.1, t.2.2.2⟩

/-- Claim C4: during Diff, a per-resource fetch returning the not-found
error emits a NotFound event and processing moves to the next resource;
any other fetch error aborts the whole Diff at once with a wrapped error
naming the resource's kind and uid, emitting nothing for that resource or
any later one; and a resource processed before the failure keeps its
already-emitted notifications (the head's events are a prefix of the
trace whatever the tail does). -/
theorem diff_fetch_error_handling :
    (∀ (σ : Type) (cfg : Config σ) (s : σ) (h : Handler σ) (r : Resource)
        (rest : List Resource),
      cfg.registry.getHandler r.Kind = .ok h →
      h.getRemote (h.unprepare r) s = .error .notFound →
      DiffGo cfg s (r :: rest) =
        ((DiffGo cfg s rest).1,
          Event.callGetRemote (h.unprepare r) :: Event.notFound (h.unprepare r) ::
            (DiffGo cfg s rest).2)) ∧
    (∀ (σ : Type) (cfg : Config σ) (s : σ) (h : Handler σ) (r : Resource)
        (rest : List Resource) (e : GErr),
      cfg.registry.getHandler r.Kind = .ok h →
      h.getRemote (h.unprepare r) s = .error e → e ≠ .notFound →
      DiffGo cfg s (r :: rest) =
        (.error (.err ("Error retrieving resource from " ++ (h.unprepare r).Kind ++
            " " ++ (h.unprepare r).Name ++ ": " ++ e.message)),
          [Event.callGetRemote (h.unprepare r)])) ∧
    (∀ (σ : Type) (cfg : Config σ) (s : σ) (h : Handler σ) (r : Resource)
        (rest : List Resource) (remote : Resource),
      cfg.registry.getHandler r.Kind = .ok h →
      h.getRemote (h.unprepare r) s = .ok remote →
      ∃ evs, DiffGo cfg s (r :: rest) =
        ((DiffGo cfg s rest).1, evs ++ (DiffGo cfg s rest).2)) := by
  refine ⟨?_, ?_, ?_⟩
  · intro σ cfg s h r rest hreg hnf
    simp [DiffGo, hreg, hnf, Resource.YAML]
  · intro σ cfg s h r rest e hreg herr hne
    simp [DiffGo, hreg, herr, hne, Resource.YAML]
  · intro σ cfg s h r rest remote hreg hok
    by_cases hc : r.yamlStr = (h.unprepare remote).yamlStr
    · exact ⟨[Event.callGetRemote (h.unprepare r),
        Event.compareReps r.yamlStr ((h.unprepare remote).yamlStr),
        Event.noChanges (h.unprepare r)], by simp [DiffGo, hreg, hok, Resource.YAML, hc]⟩
    · exact ⟨[Event.callGetRemote (h.unprepare r),
        Event.compareReps r.yamlStr ((h.unprepare remote).yamlStr),
        Event.hasChanges (h.unprepare r)
          (cfg.getUnifiedDiffString
            ⟨cfg.splitLines ((h.unprepare remote).yamlStr), cfg.splitLines r.yamlStr,
              "Remote", "Local", 3⟩)], by simp [DiffGo, hreg, hok, Resource.YAML, hc]⟩

theorem diff_fetch_error_handling_witness :
    ((cfgEx.registry.getHandler rNF.Kind = .ok nfHandler) ∧
      (nfHandler.getRemote (nfHandler.unprepare rNF) () = .error .notFound) ∧
      DiffGo cfgEx () [rNF, rOK] =
        ((DiffGo cfgEx () [rOK]).1,
          Event.callGetRemote (nfHandler.unprepare rNF) ::
            Event.notFound (nfHandler.unprepare rNF) :: (DiffGo cfgEx () [rOK]).2)) ∧
    ((cfgEx.registry.getHandler rDown.Kind = .ok downHandler) ∧
      (downHandler.getRemote (downHandler.unprepare rDown) () =
        .error (.err "connection refused")) ∧
      ((GErr.err "connection refused") ≠ .notFound) ∧
      DiffGo cfgEx () [rDown, rOK] =
        (.error (.err ("Error retrieving resource from " ++
            (downHandler.unprepare rDown).Kind ++ " " ++
            (downHandler.unprepare rDown).Name ++ ": " ++
            (GErr.err "connection refused").message)),
          [Event.callGetRemote (downHandler.unprepare rDown)])) ∧
    ((cfgEx.registry.getHandler rOK.Kind = .ok okHandler) ∧
      (okHandler.getRemote (okHandler.unprepare rOK) () = .ok remoteEx) ∧
      ∃ evs, DiffGo cfgEx () [rOK, rDown] =
        ((DiffGo cfgEx () [rDown]).1, evs ++ (DiffGo cfgEx () [rDown]).2)) :=
  ⟨⟨rfl, by decide,
      diff_fetch_error_handling.1 Unit cfgEx () nfHandler rNF [rOK] rfl (by decide)⟩,
    ⟨rfl, by decide, by decide,
      diff_fetch_error_handling.2.1 Unit cfgEx () downHandler rDown [rOK]
        (.err "connection refused") rfl (by decide) (by decide)⟩,
    ⟨rfl, by decide,
      diff_fetch_error_handling.2.2 Unit cfgEx () okHandler rOK [rDown] remoteEx
        rfl (by decide)⟩⟩

/-- Claim C5: for a Diff-processed resource whose fetch succeeds, equal
local and unprepared-remote representations emit NoChanges; unequal ones
emit HasChanges carrying exactly the unified diff built with the remote
representation as the A/"Remote" (from) side, the local representation as
the B/"Local" (to) side, and 3 lines of context; and Diff never invokes
Add or Update. -/
theorem diff_compare_and_diff_text {σ : Type} (cfg : Config σ) (s : σ) (h : Handler σ)
    (r remote : Resource) (rest : List Resource)
    (hreg : cfg.registry.getHandler r.Kind = .ok h)
    (hok : h.getRemote (h.unprepare r) s = .ok remote) :
    (r.yamlStr = (h.unprepare remote).yamlStr →
      DiffGo cfg s (r :: rest) =
        ((DiffGo cfg s rest).1,
          Event.callGetRemote (h.unprepare r) ::
            Event.compareReps r.yamlStr ((h.unprepare remote).yamlStr) ::
            Event.noChanges (h.unprepare r) :: (DiffGo cfg s rest).2)) ∧
    (r.yamlStr ≠ (h.unprepare remote).yamlStr →
      DiffGo cfg s (r :: rest) =
        ((DiffGo cfg s rest).1,
          Event.callGetRemote (h.unprepare r) ::
            Event.compareReps r.yamlStr ((h.unprepare remote).yamlStr) ::
            Event.hasChanges (h.unprepare r)
              (cfg.getUnifiedDiffString
                ⟨cfg.splitLines ((h.unprepare remote).yamlStr),
                  cfg.splitLines r.yamlStr, "Remote", "Local", 3⟩) ::
            (DiffGo cfg s rest).2)) ∧
    (∀ x, Event.callAdd x ∉
      [Event.callGetRemote (h.unprepare r),
        Event.compareReps r.yamlStr ((h.unprepare remote).yamlStr),
        Event.noChanges (h.unprepare r)]) ∧
    (∀ a b, Event.callUpdate a b ∉
      [Event.callGetRemote (h.unprepare r),
        Event.compareReps r.yamlStr ((h.unprepare remote).yamlStr),
        Event.noChanges (h.unprepare r)]) := by
  refine ⟨?_, ?_, ?_, ?_⟩
  · intro heq
    simp [DiffGo, hreg, hok, Resource.YAML, heq]
  · intro hne
    simp [DiffGo, hreg, hok, Resource.YAML, hne]
  · intro x
    simp
  · intro a b
    simp

theorem diff_compare_and_diff_text_witness :
    ((cfgEx.registry.getHandler rOK.Kind = .ok okHandler) ∧
      (okHandler.getRemote (okHandler.unprepare rOK) () = .ok remoteEx) ∧
      (rOK.yamlStr = (okHandler.unprepare remoteEx).yamlStr) ∧
      DiffGo cfgEx () [rOK] =
        ((DiffGo cfgEx () []).1,
          Event.callGetRemote (okHandler.unprepare rOK) ::
            Event.compareReps rOK.yamlStr ((okHandler.unprepare remoteEx).yamlStr) ::
            Event.noChanges (okHandler.unprepare rOK) :: (DiffGo cfgEx () []).2)) ∧
    ((okHandler.getRemote (okHandler.unprepare rOK2) () = .ok remoteEx) ∧
      (rOK2.yamlStr ≠ (okHandler.unprepare remoteEx).yamlStr) ∧
      DiffGo cfgEx () [rOK2] =
        ((DiffGo cfgEx () []).1,
          Event.callGetRemote (okHandler.unprepare rOK2) ::
            Event.compareReps rOK2.yamlStr ((okHandler.unprepare remoteEx).yamlStr) ::
            Event.hasChanges (okHandler.unprepare rOK2)
              (cfgEx.getUnifiedDiffString
                ⟨cfgEx.splitLines ((okHandler.unprepare remoteEx).yamlStr),
                  cfgEx.splitLines rOK2.yamlStr, "Remote", "Local", 3⟩) ::
            (DiffGo cfgEx () []).2)) :=
  ⟨⟨rfl, by decide, by decide,
      (diff_compare_and_diff_text cfgEx () okHandler rOK remoteEx [] rfl (by decide)).1
        (by decide)⟩,
    ⟨by decide, by decide,
      (diff_compare_and_diff_text cfgEx () okHandler rOK2 remoteEx [] rfl (by decide)).2.1
        (by decide)⟩⟩

/-- Claim C9: a parse failure aborts the whole parsing pipeline at once —
the failing manifest's error is returned, no manifest after it is
processed, and the typed result carries no partial resource set; whenever
any manifest with a registered handler fails to parse the pipeline's
result is an error; and every extracted manifest with a registered
handler is routed to that handler's Parse unless the pipeline has already
aborted with an error.  This holds for both the YAML and the jsonnet
pipeline (the latter skips manifests whose kind has no registered
handler). -/
theorem parse_failure_aborts :
    (∀ (σ : Type) (cfg : Config σ) (m : Manifest) (rest : List Manifest)
        (h : Handler σ) (e : GErr),
      cfg.registry.getHandler m.kind = .ok h → h.parse m = .error e →
      ParseYAMLGo cfg (m :: rest) = (.error e, [Event.callParse m]) ∧
      ParseJsonnetGo cfg (m :: rest) = (.error e, [Event.callParse m])) ∧
    (∀ (σ : Type) (cfg : Config σ) (ms : List Manifest) (m : Manifest)
        (h : Handler σ) (e : GErr),
      m ∈ ms → cfg.registry.getHandler m.kind = .ok h → h.parse m = .error e →
      (∃ e₂, (ParseYAMLGo cfg ms).1 = .error e₂) ∧
      (∃ e₂, (ParseJsonnetGo cfg ms).1 = .error e₂)) ∧
    (∀ (σ : Type) (cfg : Config σ) (ms : List Manifest) (m : Manifest),
      m ∈ ms →
      (∃ e, (ParseYAMLGo cfg ms).1 = .error e) ∨
        Event.callParse m ∈ (ParseYAMLGo cfg ms).2) ∧
    (∀ (σ : Type) (cfg : Config σ) (ms : List Manifest) (m : Manifest)
        (h : Handler σ),
      m ∈ ms → cfg.registry.getHandler m.kind = .ok h →
      (∃ e, (ParseJsonnetGo cfg ms).1 = .error e) ∨
        Event.callParse m ∈ (ParseJsonnetGo cfg ms).2) := by
  refine ⟨?_, ?_, ?_, ?_⟩
  · intro σ cfg m rest h e hreg hparse
    exact ⟨by simp [ParseYAMLGo, hreg, hparse], by simp [ParseJsonnetGo, hreg, hparse]⟩
  · intro σ cfg ms
    induction ms with
    | nil => intro m h e hm; simp at hm
    | cons m₀ rest ih =>
      intro m h e hm hreg hparse
      rcases List.mem_cons.mp hm with rfl | hm
      · exact ⟨⟨e, by simp [ParseYAMLGo, hreg, hparse]⟩,
          ⟨e, by simp [ParseJsonnetGo, hreg, hparse]⟩⟩
      · obtain ⟨⟨eY, hY⟩, ⟨eJ, hJ⟩⟩ := ih m h e hm hreg hparse
        constructor
        · cases hr : cfg.registry.getHandler m₀.kind with
          | error e₀ => exact ⟨e₀, by simp [ParseYAMLGo, hr]⟩
          | ok h₀ =>
            cases hp : h₀.parse m₀ with
            | error e₀ => exact ⟨e₀, by simp [ParseYAMLGo, hr, hp]⟩
            | ok rs₀ => exact ⟨eY, by simp [ParseYAMLGo, hr, hp, hY, Except.map]⟩
        · cases hr : cfg.registry.getHandler m₀.kind with
          | error e₀ => exact ⟨eJ, by simp [ParseJsonnetGo, hr, hJ]⟩
          | ok h₀ =>
            cases hp : h₀.parse m₀ with
            | error e₀ => exact ⟨e₀, by simp [ParseJsonnetGo, hr, hp]⟩
            | ok rs₀ => exact ⟨eJ, by simp [ParseJsonnetGo, hr, hp, hJ, Except.map]⟩
  · intro σ cfg ms
    induction ms with
    | nil => intro m hm; simp at hm
    | cons m₀ rest ih =>
      intro m hm
      rcases List.mem_cons.mp hm with rfl | hm
      · cases hr : cfg.registry.getHandler m.kind with
        | error e₀ => exact .inl ⟨e₀, by simp [ParseYAMLGo, hr]⟩
        | ok h₀ =>
          cases hp : h₀.parse m with
          | error e₀ => exact .inr (by simp [ParseYAMLGo, hr, hp])
          | ok rs₀ => exact .inr (by simp [ParseYAMLGo, hr, hp])
      · cases hr : cfg.registry.getHandler m₀.kind with
        | error e₀ => exact .inl ⟨e₀, by simp [ParseYAMLGo, hr]⟩
        | ok h₀ =>
          cases hp : h₀.parse m₀ with
          | error e₀ => exact .inl ⟨e₀, by simp [ParseYAMLGo, hr, hp]⟩
          | ok rs₀ =>
            rcases ih m hm with ⟨e₂, he⟩ | hmem
            · exact .inl ⟨e₂, by simp [ParseYAMLGo, hr, hp, he, Except.map]⟩
            · exact .inr (by simp [ParseYAMLGo, hr, hp, hmem])
  · intro σ cfg ms
    induction ms with
    | nil => intro m h hm; simp at hm
    | cons m₀ rest ih =>
      intro m h hm hreg
      rcases List.mem_cons.mp hm with rfl | hm
      · cases hp : h.parse m with
        | error e₀ => exact .inl ⟨e₀, by simp [ParseJsonnetGo, hreg, hp]⟩
        | ok rs₀ => exact .inr (by simp [ParseJsonnetGo, hreg, hp])
      · cases hr : cfg.registry.getHandler m₀.kind with
        | error e₀ =>
          rcases ih m h hm hreg with ⟨e₂, he⟩ | hmem
          · exact .inl ⟨e₂, by simp [ParseJsonnetGo, hr, he]⟩
          · exact .inr (by simp [ParseJsonnetGo, hr, hmem])
        | ok h₀ =>
          cases hp : h₀.parse m₀ with
          | error e₀ => exact .inl ⟨e₀, by simp [ParseJsonnetGo, hr, hp]⟩
          | ok rs₀ =>
            rcases ih m h hm hreg with ⟨e₂, he⟩ | hmem
            · exact .inl ⟨e₂, by simp [ParseJsonnetGo, hr, hp, he, Except.map]⟩
            · exact .inr (by simp [ParseJsonnetGo, hr, hp, hmem])

theorem parse_failure_aborts_witness :
    (cfgEx.registry.getHandler mBad.kind = .ok badParseHandler) ∧
    (badParseHandler.parse mBad = .error (.err "invalid spec")) ∧
    (ParseYAMLGo cfgEx [mBad, mGood] = (.error (.err "invalid spec"), [Event.callParse mBad]) ∧
      ParseJsonnetGo cfgEx [mBad, mGood] =
        (.error (.err "invalid spec"), [Event.callParse mBad])) ∧
    (mGood ∈ [mGood, mBad]) ∧
    ((∃ e, (ParseYAMLGo cfgEx [mGood, mBad]).1 = .error e) ∨
      Event.callParse mGood ∈ (ParseYAMLGo cfgEx [mGood, mBad]).2) :=
  ⟨rfl, by decide,
    parse_failure_aborts.1 Unit cfgEx mBad [mGood] badParseHandler (.err "invalid spec")
      rfl (by decide),
    by decide,
    parse_failure_aborts.2.2.1 Unit cfgEx [mGood, mBad] mGood (by decide)⟩

end Grizzly
